import Mathlib

/-!
Shallow embedding of `kernel/src/hil/time.rs`: the `Time` / `Counter` /
`Alarm` / `Timer` capability contracts of the Tock kernel HIL, together
with the four `Frequency` implementations.  The source file declares the
traits and the frequency constants; the behavioural contracts of the trait
methods (firing rule, state transitions, return codes) are given by the
specification and are modelled here accordingly.
-/

namespace TockTime

/-- The tic wraparound modulus: tics are 32-bit unsigned values. -/
def FULL_RANGE : Nat := 2 ^ 32

/-- Half of the counter range, the firing-window threshold of §4.3. -/
def HALF_RANGE : Nat := 2 ^ 31

/-- Wrapping 32-bit addition of two tic values. -/
def wadd (a b : Nat) : Nat := (a + b) % FULL_RANGE

/-- Wrapping 32-bit subtraction `a - b (mod 2^32)` of two tic values. -/
def wsub (a b : Nat) : Nat := (a % FULL_RANGE + (FULL_RANGE - b % FULL_RANGE)) % FULL_RANGE

/-- Modelled from the spec: the repository's `ReturnCode` enumeration
(`use crate::ReturnCode;` in `time.rs`) is not part of the given source;
§6 describes "a result code from a shared enumeration (e.g., Success,
Fail/Busy, InvalidState)". -/
inductive ReturnCode
  | SUCCESS
  | FAIL
  | EBUSY
  | EINVAL
deriving DecidableEq, Repr

/-- Modelled from the spec: the half-range "due" rule of §4.3 for
`Alarm` firing, which no implementation under the given source provides:
the alarm is due when `now - target (mod 2^32) < HALF_RANGE`. -/
def due (now target : Nat) : Bool := wsub now target < HALF_RANGE

/-- Modelled from the spec: the conceptual `Alarm` state of §3,
`\x7barmed: bool, target: TicValue, client: reference\x7d`; `target = none`
records that no target has ever been set (the `enable` precondition of
§4.3), and the client reference is a `none`-or-identifier option. -/
structure AlarmState where
  armed : Bool
  target : Option Nat
  client : Option Nat
deriving DecidableEq, Repr

/-- Modelled from the spec: `Alarm::set_alarm` records `tics` as the
absolute target and arms the mechanism (§4.3, and §9: "set_alarm arms
automatically"). -/
def set_alarm (s : AlarmState) (tics : Nat) : AlarmState :=
  { s with target := some tics, armed := true }

/-- Modelled from the spec: `Alarm::get_alarm` returns the last-set
target at any time (§4.3). -/
def get_alarm (s : AlarmState) : Nat := s.target.getD 0

/-- Modelled from the spec: `Alarm::set_client` installs the callback
target, replacing any prior one (§4.3). -/
def set_client (s : AlarmState) (c : Nat) : AlarmState :=
  { s with client := some c }

/-- Modelled from the spec: `Alarm::enable` may fail if no target has
ever been set, signalling a precondition violation; otherwise it arms the
pending notification and succeeds (§4.3, §7). -/
def alarm_enable (s : AlarmState) : ReturnCode × AlarmState :=
  match s.target with
  | none => (ReturnCode.EINVAL, s)
  | some _ => (ReturnCode.SUCCESS, { s with armed := true })

/-- Modelled from the spec: `Alarm::disable` must always succeed and
disarms the pending notification; a redundant call is a successful no-op
(§4.3, §7). -/
def alarm_disable (s : AlarmState) : ReturnCode × AlarmState :=
  (ReturnCode.SUCCESS, { s with armed := false })

/-- Modelled from the spec: one servicing step of the hardware at counter
value `now` (§4.3): if the alarm is armed and its target is due, the
registered client's `fired()` is signalled and the alarm becomes disarmed
(one-shot semantics).  The boolean reports whether `fired()` was
signalled at this step. -/
def alarm_tick (s : AlarmState) (now : Nat) : Bool × AlarmState :=
  match s.target with
  | none => (false, s)
  | some t =>
      if s.armed && due now t then (true, { s with armed := false })
      else (false, s)

/-- The client to which a `fired()` callback is delivered by a servicing
step at counter value `now`, when one is delivered at all. -/
def delivered (s : AlarmState) (now : Nat) : Option Nat :=
  if (alarm_tick s now).1 then s.client else none

/-- Number of `fired()` deliveries over a trace of servicing steps. -/
def countFired : AlarmState → List Nat → Nat
  | _, [] => 0
  | s, n :: rest =>
      (if (alarm_tick s n).1 then 1 else 0) + countFired (alarm_tick s n).2 rest

/-- Operations a caller (or the servicing context) can apply to an
`Alarm` between two observations. -/
inductive AlarmOp
  | setAlarm (tics : Nat)
  | enable
  | disable
  | setClient (c : Nat)
  | tick (now : Nat)
deriving DecidableEq, Repr

/-- State evolution of an `Alarm` under one operation. -/
def alarm_step (s : AlarmState) (op : AlarmOp) : AlarmState :=
  match op with
  | AlarmOp.setAlarm tics => set_alarm s tics
  | AlarmOp.enable => (alarm_enable s).2
  | AlarmOp.disable => (alarm_disable s).2
  | AlarmOp.setClient c => set_client s c
  | AlarmOp.tick now => (alarm_tick s now).2

/-- Recognizer for the `setAlarm` operation. -/
def AlarmOp.isSetAlarm : AlarmOp → Bool
  | AlarmOp.setAlarm _ => true
  | _ => false

/-- Recognizer for the `setClient` operation. -/
def AlarmOp.isSetClient : AlarmOp → Bool
  | AlarmOp.setClient _ => true
  | _ => false

/-- Modelled from the spec: the Timer mode flag of §3,
`mode: Oneshot | Repeating`. -/
inductive TimerMode
  | oneshotMode
  | repeatingMode
deriving DecidableEq, Repr

/-- Modelled from the spec: the conceptual `Timer` state of §3,
`\x7bmode, interval, enabled\x7d` together with the adapter-internal
`next_target` and the registered client. -/
structure TimerState where
  mode : TimerMode
  interval : Nat
  enabled : Bool
  next_target : Nat
  client : Option Nat
deriving DecidableEq, Repr

/-- Modelled from the spec: `Timer::oneshot(interval)` computes the
absolute target as `now() + interval (mod 2^32)` and arms the mechanism
in one-shot mode (§4.4). -/
def timer_oneshot (s : TimerState) (now i : Nat) : TimerState :=
  { s with mode := TimerMode.oneshotMode, interval := i, enabled := true,
           next_target := wadd now i }

/-- Modelled from the spec: `Timer::repeat(interval)` computes the
absolute target as `now() + interval (mod 2^32)` and arms the mechanism
in repeating mode (§4.4). -/
def timer_repeat (s : TimerState) (now i : Nat) : TimerState :=
  { s with mode := TimerMode.repeatingMode, interval := i, enabled := true,
           next_target := wadd now i }

/-- Modelled from the spec: one firing of the `Timer` adapter, serviced
at counter value `_now` (§4.4): in one-shot mode the timer becomes
disabled; in repeating mode the next target is recomputed as
`previous_target + interval (mod 2^32)` — deliberately not from the
servicing time, so callback latency causes no drift. -/
def timer_fire (s : TimerState) (_now : Nat) : TimerState :=
  match s.mode with
  | TimerMode.oneshotMode => { s with enabled := false }
  | TimerMode.repeatingMode =>
      { s with next_target := wadd s.next_target s.interval }

/-- Modelled from the spec: `Timer::time_remaining` returns
`target - now() (mod 2^32)` while enabled, clamped to 0 once the target
has been passed or when the timer is disabled (§4.4). -/
def time_remaining (s : TimerState) (now : Nat) : Nat :=
  if s.enabled then
    if due now s.next_target then 0 else wsub s.next_target now
  else 0

/-- Modelled from the spec: `Timer::cancel` disarms the timer and always
succeeds; cancelling an already-cancelled timer is a successful no-op
(§4.4, §7). -/
def timer_cancel (s : TimerState) : ReturnCode × TimerState :=
  (ReturnCode.SUCCESS, { s with enabled := false })

/-- Modelled from the spec: the `Counter` running flag of §2/§4.2. -/
structure CounterState where
  running : Bool
deriving DecidableEq, Repr

/-- Modelled from the spec: `Counter::stop` halts the free-running clock;
a redundant call is a successful no-op (§4.2, §7). -/
def counter_stop (c : CounterState) : ReturnCode × CounterState :=
  (ReturnCode.SUCCESS, { c with running := false })

/-- `Freq16MHz::frequency`, from `kernel/src/hil/time.rs`. -/
def Freq16MHz.frequency : Nat := 16000000

/-- `Freq32KHz::frequency`, from `kernel/src/hil/time.rs`. -/
def Freq32KHz.frequency : Nat := 32768

/-- `Freq16KHz::frequency`, from `kernel/src/hil/time.rs`. -/
def Freq16KHz.frequency : Nat := 16000

/-- `Freq1KHz::frequency`, from `kernel/src/hil/time.rs`. -/
def Freq1KHz.frequency : Nat := 1000

/-- Claim C10: each of the four `Frequency` implementations is a constant
function returning the documented rate; in particular `Freq32KHz` reports
32768 Hz (the watch-crystal rate 2^15), not 32000 Hz. -/
theorem frequency_constants :
    Freq16MHz.frequency = 16000000 ∧
    Freq32KHz.frequency = 32768 ∧
    Freq32KHz.frequency = 2 ^ 15 ∧
    Freq32KHz.frequency ≠ 32000 ∧
    Freq16KHz.frequency = 16000 ∧
    Freq1KHz.frequency = 1000 := by
  refine ⟨rfl, rfl, rfl, ?_, rfl, rfl⟩
  decide

/-- Claim C1: the "due" decision is the half-range rule, and it is
wraparound-consistent: as `now` advances circularly through the full
32-bit range starting just before `target` (at offset `k` the counter
reads `(target - 1 + k) mod 2^32`), the alarm is due exactly for
`1 ≤ k ≤ 2^31`, so the false-to-true crossing happens exactly once, at
`now = target`, wherever the crossing lies in the range. -/
theorem due_crossing (target k : Nat) (_ht : target < FULL_RANGE) (hk : k < FULL_RANGE) :
    due ((target + (FULL_RANGE - 1) + k) % FULL_RANGE) target
      = decide (1 ≤ k ∧ k ≤ HALF_RANGE) := by
  simp only [due, wsub, FULL_RANGE, HALF_RANGE, decide_eq_decide]
  simp only [FULL_RANGE, HALF_RANGE] at hk
  omega

/-- Witness for C1, at the wrap-spanning scenario of §8: with
`target = 0x10`, after `k = 0x20` steps from `0xFFFFFFF0 + 0xF` the
counter has crossed the target through the 0 boundary and the alarm is
due. -/
theorem due_crossing_witness :
    due ((0x10 + (FULL_RANGE - 1) + 0x20) % FULL_RANGE) 0x10
      = decide (1 ≤ 0x20 ∧ 0x20 ≤ HALF_RANGE) :=
  due_crossing 0x10 0x20 (by decide) (by decide)

/-- Helper: every operation other than `setAlarm` leaves the stored
target unchanged. -/
theorem alarm_step_preserves_target (s : AlarmState) (op : AlarmOp)
    (h : op.isSetAlarm = false) :
    (alarm_step s op).target = s.target := by
  cases op with
  | setAlarm n => simp [AlarmOp.isSetAlarm] at h
  | enable => cases htgt : s.target <;> simp [alarm_step, alarm_enable, htgt]
  | disable => rfl
  | setClient c => rfl
  | tick now =>
      cases htgt : s.target <;> simp [alarm_step, alarm_tick, htgt]
      split <;> simp [htgt]

/-- Helper: a trace of operations containing no `setAlarm` leaves the
stored target unchanged. -/
theorem foldl_preserves_target (ops : List AlarmOp) (s : AlarmState)
    (h : ∀ op ∈ ops, op.isSetAlarm = false) :
    (List.foldl alarm_step s ops).target = s.target := by
  induction ops generalizing s with
  | nil => rfl
  | cons op rest ih =>
      rw [List.foldl_cons, ih _ (fun o ho => h o (List.mem_cons_of_mem _ ho)),
        alarm_step_preserves_target s op (h op (List.mem_cons_self _ _))]

/-- Claim C2: after `set_alarm(tics)`, and then any sequence of
operations containing no further `set_alarm` (enable, disable, client
changes, firings), `get_alarm()` still returns `tics`. -/
theorem get_alarm_stable (s : AlarmState) (tics : Nat) (ops : List AlarmOp)
    (h : ∀ op ∈ ops, op.isSetAlarm = false) :
    get_alarm (List.foldl alarm_step (alarm_step s (AlarmOp.setAlarm tics)) ops)
      = tics := by
  rw [get_alarm, foldl_preserves_target ops _ h]
  rfl

/-- Witness for C2: after setting 42, firing at 42 and disabling, the
stored value is still 42. -/
theorem get_alarm_stable_witness :
    get_alarm (List.foldl alarm_step
      (alarm_step ⟨false, none, none⟩ (AlarmOp.setAlarm 42))
      [AlarmOp.enable, AlarmOp.tick 42, AlarmOp.disable]) = 42 :=
  get_alarm_stable ⟨false, none, none⟩ 42
    [AlarmOp.enable, AlarmOp.tick 42, AlarmOp.disable] (by decide)

/-- Claim C3: `disable()` on an alarm, `cancel()` on a timer and
`stop()` on a counter always return success; applying any of them twice
equals applying it once; and on an already disabled / cancelled /
stopped instance they leave the whole state (armed flag, target,
interval, mode, running flag, client) unchanged. -/
theorem disable_cancel_stop_idempotent (a : AlarmState) (t : TimerState)
    (c : CounterState) :
    (alarm_disable a).1 = ReturnCode.SUCCESS ∧
    alarm_disable (alarm_disable a).2 = alarm_disable a ∧
    (a.armed = false → (alarm_disable a).2 = a) ∧
    (timer_cancel t).1 = ReturnCode.SUCCESS ∧
    timer_cancel (timer_cancel t).2 = timer_cancel t ∧
    (t.enabled = false → (timer_cancel t).2 = t) ∧
    (counter_stop c).1 = ReturnCode.SUCCESS ∧
    counter_stop (counter_stop c).2 = counter_stop c ∧
    (c.running = false → (counter_stop c).2 = c) := by
  obtain ⟨ar, tg, cl⟩ := a
  obtain ⟨mo, iv, en, nt, tcl⟩ := t
  obtain ⟨ru⟩ := c
  refine ⟨rfl, rfl, ?_, rfl, rfl, ?_, rfl, rfl, ?_⟩ <;> intro h <;>
    simp_all [alarm_disable, timer_cancel, counter_stop]

/-- Witness for C3: redundant disable, cancel and stop on already
cleared instances leave them untouched. -/
theorem disable_cancel_stop_idempotent_witness :
    (alarm_disable ⟨false, some 7, none⟩).2 = ⟨false, some 7, none⟩ ∧
    (timer_cancel ⟨TimerMode.oneshotMode, 3, false, 9, none⟩).2
      = ⟨TimerMode.oneshotMode, 3, false, 9, none⟩ ∧
    (counter_stop ⟨false⟩).2 = ⟨false⟩ :=
  ⟨(disable_cancel_stop_idempotent ⟨false, some 7, none⟩
      ⟨TimerMode.oneshotMode, 3, false, 9, none⟩ ⟨false⟩).2.2.1 rfl,
   (disable_cancel_stop_idempotent ⟨false, some 7, none⟩
      ⟨TimerMode.oneshotMode, 3, false, 9, none⟩ ⟨false⟩).2.2.2.2.2.1 rfl,
   (disable_cancel_stop_idempotent ⟨false, some 7, none⟩
      ⟨TimerMode.oneshotMode, 3, false, 9, none⟩ ⟨false⟩).2.2.2.2.2.2.2.2 rfl⟩

/-- Helper: `FULL_RANGE` is positive. -/
theorem FULL_RANGE_pos : 0 < FULL_RANGE := by decide

/-- Helper: over any trace of firings of a repeating timer, the interval
and mode are unchanged and the target advances by one interval per
firing, modulo `2^32`. -/
theorem foldl_fire_repeating (nows : List Nat) (s : TimerState)
    (hm : s.mode = TimerMode.repeatingMode) (hlt : s.next_target < FULL_RANGE) :
    (List.foldl timer_fire s nows).interval = s.interval ∧
    (List.foldl timer_fire s nows).next_target
      = (s.next_target + nows.length * s.interval) % FULL_RANGE := by
  induction nows generalizing s with
  | nil => simpa using (Nat.mod_eq_of_lt hlt).symm
  | cons n rest ih =>
      have hstep : timer_fire s n
          = { s with next_target := wadd s.next_target s.interval } := by
        simp [timer_fire, hm]
      rw [List.foldl_cons, hstep]
      have hih := ih { s with next_target := wadd s.next_target s.interval }
        hm (Nat.mod_lt _ FULL_RANGE_pos)
      refine ⟨hih.1, ?_⟩
      rw [hih.2]
      show (wadd s.next_target s.interval + rest.length * s.interval)
          % FULL_RANGE = _
      rw [wadd, Nat.mod_add_mod, List.length_cons, Nat.succ_mul]
      congr 1
      ring

/-- Claim C4: a timer armed with `repeat(i)` at counter value `now0`
recomputes, on every firing, the next target as
`previous_target + i (mod 2^32)` — independent of the servicing times in
`nows` — so after `k` firings the target is `now0 + (k+1)*i (mod 2^32)`,
and `interval()` still returns `i`. -/
theorem repeat_drift_free (s : TimerState) (now0 i : Nat) (nows : List Nat) :
    (List.foldl timer_fire (timer_repeat s now0 i) nows).interval = i ∧
    (List.foldl timer_fire (timer_repeat s now0 i) nows).next_target
      = (now0 + (nows.length + 1) * i) % FULL_RANGE := by
  have h := foldl_fire_repeating nows (timer_repeat s now0 i) rfl
    (Nat.mod_lt _ FULL_RANGE_pos)
  refine ⟨h.1, ?_⟩
  rw [h.2]
  show (wadd now0 i + nows.length * i) % FULL_RANGE = _
  rw [wadd, Nat.mod_add_mod, Nat.add_mul, Nat.one_mul]
  congr 1
  ring

/-- Claim C5: `oneshot(i)` and `repeat(i)` both set the absolute target
to `now + i (mod 2^32)` and arm the timer. -/
theorem timer_arm_target (s : TimerState) (now i : Nat) :
    (timer_oneshot s now i).next_target = (now + i) % FULL_RANGE ∧
    (timer_oneshot s now i).enabled = true ∧
    (timer_repeat s now i).next_target = (now + i) % FULL_RANGE ∧
    (timer_repeat s now i).enabled = true :=
  ⟨rfl, rfl, rfl, rfl⟩

/-- Claim C6: `time_remaining()` equals `target - now (mod 2^32)` while
the timer is enabled and the target has not been passed; it equals 0
once passed or when disabled; and it never exceeds `HALF_RANGE`, so it
can never be misread as a far-future wrapped value. -/
theorem time_remaining_spec (s : TimerState) (now : Nat) :
    time_remaining s now
      = (if s.enabled = true ∧ due now s.next_target = false
         then wsub s.next_target now else 0) ∧
    time_remaining s now ≤ HALF_RANGE := by
  cases henb : s.enabled <;> cases hdue : due now s.next_target <;>
      simp [time_remaining, henb, hdue]
  simp only [due, decide_eq_false_iff_not, Nat.not_lt] at hdue
  simp only [wsub, FULL_RANGE, HALF_RANGE] at hdue ⊢
  omega

/-- Claim C7: `Alarm::disable` returns success in every state, and
`Alarm::enable` returns a non-success code exactly when no target has
ever been set. -/
theorem enable_disable_status (s : AlarmState) :
    (alarm_disable s).1 = ReturnCode.SUCCESS ∧
    ((alarm_enable s).1 ≠ ReturnCode.SUCCESS ↔ s.target = none) := by
  refine ⟨rfl, ?_⟩
  cases htgt : s.target <;> simp [alarm_enable, htgt]

/-- Witness for C7: on a virgin alarm (no target ever set), disable
succeeds and enable reports a non-success code. -/
theorem enable_disable_status_witness :
    (alarm_disable ⟨true, none, none⟩).1 = ReturnCode.SUCCESS ∧
    (alarm_enable ⟨true, none, none⟩).1 ≠ ReturnCode.SUCCESS :=
  ⟨(enable_disable_status ⟨true, none, none⟩).1,
   (enable_disable_status ⟨true, none, none⟩).2.mpr rfl⟩

/-- Helper: every operation other than `setClient` leaves the registered
client unchanged. -/
theorem alarm_step_preserves_client (s : AlarmState) (op : AlarmOp)
    (h : op.isSetClient = false) :
    (alarm_step s op).client = s.client := by
  cases op with
  | setAlarm n => rfl
  | enable => cases htgt : s.target <;> simp [alarm_step, alarm_enable, htgt]
  | disable => rfl
  | setClient c => simp [AlarmOp.isSetClient] at h
  | tick now =>
      cases htgt : s.target <;> simp [alarm_step, alarm_tick, htgt]
      split <;> rfl

/-- Helper: a trace of operations containing no `setClient` leaves the
registered client unchanged. -/
theorem foldl_preserves_client (ops : List AlarmOp) (s : AlarmState)
    (h : ∀ op ∈ ops, op.isSetClient = false) :
    (List.foldl alarm_step s ops).client = s.client := by
  induction ops generalizing s with
  | nil => rfl
  | cons op rest ih =>
      rw [List.foldl_cons, ih _ (fun o ho => h o (List.mem_cons_of_mem _ ho)),
        alarm_step_preserves_client s op (h op (List.mem_cons_self _ _))]

/-- Claim C8: after `set_client(c1)` then `set_client(c2)`, and any
further operations that do not change the client, exactly `c2` is the
registered client, and any `fired()` delivery goes to `c2`, never to
`c1`. -/
theorem set_client_replaces (s : AlarmState) (c1 c2 : Nat) (hne : c1 ≠ c2)
    (ops : List AlarmOp) (h : ∀ op ∈ ops, op.isSetClient = false) (now : Nat) :
    (List.foldl alarm_step (set_client (set_client s c1) c2) ops).client
      = some c2 ∧
    delivered (List.foldl alarm_step (set_client (set_client s c1) c2) ops) now
      ≠ some c1 := by
  have hcl : (List.foldl alarm_step (set_client (set_client s c1) c2) ops).client
      = some c2 := by
    rw [foldl_preserves_client ops _ h]
    rfl
  refine ⟨hcl, ?_⟩
  unfold delivered
  split
  · rw [hcl]
    simp [Ne.symm hne]
  · simp

/-- Witness for C8: with client 1 replaced by client 2, arming at 5 and
firing at 5 delivers to client 2, never to client 1. -/
theorem set_client_replaces_witness :
    (List.foldl alarm_step (set_client (set_client ⟨false, none, none⟩ 1) 2)
      [AlarmOp.setAlarm 5, AlarmOp.tick 5]).client = some 2 ∧
    delivered (List.foldl alarm_step
      (set_client (set_client ⟨false, none, none⟩ 1) 2)
      [AlarmOp.setAlarm 5, AlarmOp.tick 5]) 5 ≠ some 1 :=
  set_client_replaces ⟨false, none, none⟩ 1 2 (by decide)
    [AlarmOp.setAlarm 5, AlarmOp.tick 5] (by decide) 5

/-- Helper: a servicing step on a disarmed alarm delivers nothing and
changes nothing. -/
theorem alarm_tick_disarmed (s : AlarmState) (n : Nat) (h : s.armed = false) :
    alarm_tick s n = (false, s) := by
  cases htgt : s.target <;> simp [alarm_tick, htgt, h]

/-- Helper: a disarmed alarm delivers no `fired()` over any trace. -/
theorem countFired_disarmed (nows : List Nat) (s : AlarmState)
    (h : s.armed = false) :
    countFired s nows = 0 := by
  induction nows generalizing s with
  | nil => rfl
  | cons n rest ih =>
      rw [countFired, alarm_tick_disarmed s n h]
      simpa using ih s h

/-- Claim C9: over any trace of servicing steps with no re-arming, a
single arming produces at most one `fired()` delivery, and a step that
delivers `fired()` leaves the alarm disarmed. -/
theorem fired_at_most_once (s : AlarmState) (nows : List Nat) :
    countFired s nows ≤ 1 ∧
    ∀ now, (alarm_tick s now).1 = true → (alarm_tick s now).2.armed = false := by
  constructor
  · induction nows generalizing s with
    | nil => exact Nat.zero_le 1
    | cons n rest ih =>
        rw [countFired]
        by_cases hf : (alarm_tick s n).1 = true
        · have hdis : (alarm_tick s n).2.armed = false := by
            revert hf
            unfold alarm_tick
            cases s.target <;> simp
            split <;> simp_all
          rw [hf]
          simp [countFired_disarmed rest _ hdis]
        · simp only [hf]
          simpa using ih (alarm_tick s n).2
  · intro now hf
    revert hf
    unfold alarm_tick
    cases s.target <;> simp
    split <;> simp_all

/-- Witness for C9: an alarm armed for tic 10 fires at most once over
the trace 10, 11, 12, and the firing step at 10 disarms it. -/
theorem fired_at_most_once_witness :
    countFired ⟨true, some 10, some 0⟩ [10, 11, 12] ≤ 1 ∧
    (alarm_tick ⟨true, some 10, some 0⟩ 10).2.armed = false :=
  ⟨(fired_at_most_once ⟨true, some 10, some 0⟩ [10, 11, 12]).1,
   (fired_at_most_once ⟨true, some 10, some 0⟩ [10, 11, 12]).2 10 (by decide)⟩

end TockTime
